import Mathlib

/-!
KtxBundle: the blob container of `libs/image/src/KtxBundle.cpp`

A shallow embedding of the in-memory KTX bundle: the implementation record `KtxImpl`,
the index flattening `flatten`, the two constructors, the accessors, the slot operations
`getBlob` / `setBlob`, the placeholders `serialize` / `getSerializedLength`, and the
handles (`KtxBundle` objects) that share one implementation record.

Conventions of the embedding.
* `uint32_t` values are natural numbers; every arithmetic operation the source performs
  on `uint32_t` operands is wrapped with `u32` (reduction modulo `2 ^ 32`).
* `std::vector<T>` is `List T`; `v[i]` with `i` outside the vector is undefined behaviour
  in C++ and is the explicit outcome `Outcome.undefinedBehaviour` here.
* A method that returns `bool` and fills out-parameters returns an `Option` of the
  out-parameters (`none` for `false`).
* A method that mutates the bundle returns the new implementation record.
-/

set_option linter.dupNamespace false

namespace image

/-- One byte of image data (`uint8_t`). -/
abbrev Byte := UInt8

/-- A blob is `std::vector<uint8_t>`. -/
abbrev Blob := List Byte

/-- Reduction of a natural number to the range of `uint32_t`. -/
def u32 (n : Nat) : Nat := n % 4294967296

/-- Result of running a piece of the C++ code: either it returns a value, or it performs
an out-of-range `std::vector::operator[]`, which is undefined behaviour. -/
inductive Outcome (α : Type) where
  | returns : α → Outcome α
  | undefinedBehaviour : Outcome α
deriving DecidableEq, Repr

/-- Modelled from the spec: `image::KtxInfo` is declared in `image/KtxBundle.h`, which is
not part of the sources at hand. The spec's HeaderRecord lists unsigned integer fields for
the pixel encoding (type, type size, format, internal format, base internal format) and
the spatial dimensions (width, height, depth). `info = {}` zero-initialises them. -/
structure KtxInfo where
  pixelType : Nat := 0
  typeSize : Nat := 0
  format : Nat := 0
  internalFormat : Nat := 0
  baseInternalFormat : Nat := 0
  width : Nat := 0
  height : Nat := 0
  depth : Nat := 0
deriving DecidableEq, Repr

/-- Modelled from the spec: `image::KtxBlobIndex` is declared in `image/KtxBundle.h`, which
is not part of the sources at hand. The spec's BlobIndex is a triple of unsigned values;
the field names are the ones `KtxBundle.cpp` reads. The components are `uint32_t`. -/
structure KtxBlobIndex where
  mipLevel : Nat
  arrayIndex : Nat
  cubeFace : Nat
deriving DecidableEq, Repr

/-- The `struct KtxImpl` of the source. -/
structure KtxImpl where
  info : KtxInfo := {}
  nmips : Nat
  nlayers : Nat
  nfaces : Nat
  blobs : List Blob
deriving DecidableEq, Repr

/-- The source's `flatten`: `index.cubeFace + index.arrayIndex * impl->nfaces +
index.mipLevel * impl->nlayers * impl->nfaces`, every operation on `uint32_t` operands. -/
def flatten (impl : KtxImpl) (index : KtxBlobIndex) : Nat :=
  u32 (u32 (index.cubeFace + u32 (index.arrayIndex * impl.nfaces)) +
    u32 (u32 (index.mipLevel * impl.nlayers) * impl.nfaces))

/-- The effect of `std::vector<T>::resize(n)`: keep the first `n` elements, append
value-initialised elements up to length `n`. -/
def resize {α : Type} (v : List α) (n : Nat) (fill : α) : List α :=
  v.take n ++ List.replicate (n - v.length) fill

/-- The effect of `memcpy(dst.data(), src, n)` on the destination vector: its first `n`
bytes become the first `n` bytes of the source. -/
def memcpy (dst : Blob) (src : Blob) (n : Nat) : Blob :=
  src.take n ++ dst.drop n

namespace KtxBundle

/-- The constructor `KtxBundle::KtxBundle(uint32_t numMipLevels, uint32_t arrayLength,
bool isCubemap)`: a fresh implementation record whose slot vector is resized to the
`uint32_t` product of the three counts. -/
def KtxBundle (numMipLevels arrayLength : Nat) (isCubemap : Bool) : KtxImpl :=
  let nfaces := if isCubemap then 6 else 1
  { info := {}
    nmips := numMipLevels
    nlayers := arrayLength
    nfaces := nfaces
    blobs := resize [] (u32 (u32 (numMipLevels * arrayLength) * nfaces)) [] }

/-- The constructor `KtxBundle::KtxBundle(uint8_t const* bytes, uint32_t nbytes)`: the body
is a placeholder that sets the three counts to zero and leaves the slot vector empty. -/
def KtxBundleFromBytes (_bytes : List Byte) (_nbytes : Nat) : KtxImpl :=
  { info := {}
    nmips := 0
    nlayers := 0
    nfaces := 0
    blobs := [] }

/-- The accessor `KtxBundle::getNumMipLevels`. -/
def getNumMipLevels (self : KtxImpl) : Nat := self.nmips

/-- The accessor `KtxBundle::getArrayLength`. -/
def getArrayLength (self : KtxImpl) : Nat := self.nlayers

/-- The accessor `KtxBundle::isCubemap`: `return mImplRef->impl->nfaces;`, the `uint32_t`
converted to `bool`, which is `true` exactly for a non-zero value. -/
def isCubemap (self : KtxImpl) : Bool := self.nfaces != 0

/-- The bounds test shared by `getBlob` and `setBlob`. -/
def outOfBounds (self : KtxImpl) (index : KtxBlobIndex) : Bool :=
  decide (index.mipLevel ≥ self.nmips) || decide (index.arrayIndex ≥ self.nlayers) ||
    decide (index.cubeFace ≥ self.nfaces)

/-- The method `KtxBundle::getBlob`. The result `some (data, size)` stands for `true` with
the out-parameters `*data` (the bytes the pointer views) and `*size`; `none` for `false`. -/
def getBlob (self : KtxImpl) (index : KtxBlobIndex) : Outcome (Option (Blob × Nat)) :=
  if outOfBounds self index then
    .returns none
  else
    match self.blobs[flatten self index]? with
    | none => .undefinedBehaviour
    | some blob =>
      if blob.isEmpty then
        .returns none
      else
        .returns (some (blob, u32 blob.length))

/-- The method `KtxBundle::setBlob`, called with the `bytes.length` bytes at `data`.
Returns the `bool` result and the implementation record after the call. -/
def setBlob (self : KtxImpl) (index : KtxBlobIndex) (bytes : Blob) :
    Outcome (Bool × KtxImpl) :=
  if outOfBounds self index then
    .returns (false, self)
  else
    match self.blobs[flatten self index]? with
    | none => .undefinedBehaviour
    | some blob =>
      let size := bytes.length
      let blob1 := resize blob size 0
      let blob2 := memcpy blob1 bytes size
      .returns (true, { self with blobs := self.blobs.set (flatten self index) blob2 })

/-- One call of the slot interface, with its arguments. -/
inductive Call where
  | getBlob (index : KtxBlobIndex)
  | setBlob (index : KtxBlobIndex) (bytes : Blob)
deriving DecidableEq, Repr

/-- The implementation record after one call (`getBlob` is `const`: it leaves the record
as it is), or undefined behaviour when the call runs into it. -/
def step (self : KtxImpl) : Call → Outcome KtxImpl
  | .getBlob index =>
    match getBlob self index with
    | .returns _ => .returns self
    | .undefinedBehaviour => .undefinedBehaviour
  | .setBlob index bytes =>
    match setBlob self index bytes with
    | .returns r => .returns r.2
    | .undefinedBehaviour => .undefinedBehaviour

/-- The implementation record after a sequence of calls, made one after the other. -/
def run (self : KtxImpl) : List Call → Outcome KtxImpl
  | [] => .returns self
  | c :: rest =>
    match step self c with
    | .returns next => run next rest
    | .undefinedBehaviour => .undefinedBehaviour

end KtxBundle

/-- An index every component of which is below its bound: the negation of the bounds test
of `getBlob` and `setBlob`. -/
def InBounds (self : KtxImpl) (index : KtxBlobIndex) : Prop :=
  index.mipLevel < self.nmips ∧ index.arrayIndex < self.nlayers ∧
    index.cubeFace < self.nfaces

instance (self : KtxImpl) (index : KtxBlobIndex) : Decidable (InBounds self index) := by
  unfold InBounds; infer_instance

/-- The number of index triples of a bundle, as a natural number (no wrap-around). -/
def slotCount (self : KtxImpl) : Nat := self.nmips * self.nlayers * self.nfaces

/-- The slot vector has one slot per index triple and the number of triples is within the
range in which the `uint32_t` arithmetic of `flatten` does not wrap around. -/
def SlotsFit (self : KtxImpl) : Prop :=
  self.blobs.length = slotCount self ∧ slotCount self ≤ 4294967296

instance (self : KtxImpl) : Decidable (SlotsFit self) := by
  unfold SlotsFit; infer_instance

/-- The bytes of the last `setBlob` call of a sequence that addresses `index`, if there is
one. -/
def lastWrite (index : KtxBlobIndex) : List KtxBundle.Call → Option Blob
  | [] => none
  | c :: rest =>
    match lastWrite index rest with
    | some bytes => some bytes
    | none =>
      match c with
      | .setBlob i bytes => if i = index then some bytes else none
      | .getBlob _ => none

/-- The counts and the length of the slot vector agree in two implementation records. -/
def SameShape (a b : KtxImpl) : Prop :=
  a.nmips = b.nmips ∧ a.nlayers = b.nlayers ∧ a.nfaces = b.nfaces ∧
    a.blobs.length = b.blobs.length

/-- The nested enumeration of the comment above `flatten`: for each mip level, for each
array element, for each face. -/
def enumeration (nmips nlayers nfaces : Nat) : List KtxBlobIndex :=
  (List.range nmips).flatMap fun mip =>
    (List.range nlayers).flatMap fun layer =>
      (List.range nfaces).map fun face => ⟨mip, layer, face⟩

namespace KtxBundle

/-- The method `KtxBundle::serialize(uint8_t* destination, uint32_t numBytes)`: the body is
a placeholder (`// TBD`) that writes nothing and returns `false`. The result is the `bool`
and the destination buffer after the call. -/
def serialize (_self : KtxImpl) (destination : List Byte) (_numBytes : Nat) :
    Bool × List Byte :=
  (false, destination)

/-- The method `KtxBundle::getSerializedLength`: the body is a placeholder (`// TBD`) that
returns 0. -/
def getSerializedLength (_self : KtxImpl) : Nat := 0

end KtxBundle

/-- The number of zero bytes that follow `n` bytes up to the next 4-byte boundary. -/
def padding4 (n : Nat) : Nat := (4 - n % 4) % 4

/-- The byte length of the file layout as the spec words it, for comparison with
`getSerializedLength`: a 12-byte identifier, a 4-byte endianness marker, `headerFields`
header fields of 4 bytes, the 4-byte metadata block length, `metadataBytes` bytes of
metadata entries, and per slot a 4-byte length, the data and the padding to a 4-byte
boundary. The spec leaves the number of header fields open. -/
def specLayoutLength (headerFields metadataBytes : Nat) (self : KtxImpl) : Nat :=
  12 + 4 + headerFields * 4 + 4 + metadataBytes +
    (self.blobs.map fun blob => 4 + blob.length + padding4 blob.length).sum

/-- The triple a slot offset `k` is unflattened to, in the spec's words:
`(k / (arrayLength * faceCount), (k / faceCount) mod arrayLength, k mod faceCount)`. -/
def unflatten (impl : KtxImpl) (k : Nat) : KtxBlobIndex :=
  { mipLevel := k / (impl.nlayers * impl.nfaces)
    arrayIndex := (k / impl.nfaces) % impl.nlayers
    cubeFace := k % impl.nfaces }

/-! ## Handles

A `KtxBundle` object holds one pointer, `mImplRef`, to a `SharedReference`, which holds a
`std::shared_ptr<KtxImpl>`. Objects live in a `Memory`; a pointer is the position of the
object in its list, and a handle is the address of a `KtxBundle` object, so that
`this == &that` can be told. Deallocation is not part of the embedding. -/

/-- The `struct KtxBundle::SharedReference`: its member `impl`, the address of the
implementation record the shared pointer refers to. -/
structure SharedReference where
  impl : Nat
deriving DecidableEq, Repr

/-- The objects created so far: the `KtxBundle` objects (each one its member `mImplRef`,
`none` for `nullptr`), the `SharedReference` objects made by `new`, and the `KtxImpl`
objects made by `std::make_shared`. -/
structure Memory where
  bundles : List (Option Nat)
  references : List SharedReference
  impls : List KtxImpl
deriving DecidableEq, Repr

/-- The implementation record `std::make_shared<KtxImpl>()` creates: value-initialised,
the counts are 0 and there is no slot. -/
def KtxImpl.fresh : KtxImpl :=
  { info := {}, nmips := 0, nlayers := 0, nfaces := 0, blobs := [] }

/-- The expression `mImplRef->impl.get()` of the `KtxBundle` object at address `h`: the
address and the value of the implementation record, `none` when a pointer on the way is
null or dangling. -/
def Memory.self (m : Memory) (h : Nat) : Option (Nat × KtxImpl) :=
  match m.bundles[h]? with
  | some (some r) =>
    match m.references[r]? with
    | none => none
    | some ref =>
      match m.impls[ref.impl]? with
      | none => none
      | some impl => some (ref.impl, impl)
  | _ => none

/-- The expression `new SharedReference()`: the default member initialiser makes a fresh
implementation record; the result is the address of the new `SharedReference`. -/
def Memory.newSharedReference (m : Memory) : Nat × Memory :=
  (m.references.length,
    { m with
      references := m.references ++ [{ impl := m.impls.length }]
      impls := m.impls ++ [KtxImpl.fresh] })

namespace Handle

/-- The dimension constructor on a new `KtxBundle` object: `mImplRef(new SharedReference)`,
then the body fills in the fresh implementation record as `KtxBundle.KtxBundle` describes.
The result is the address of the new object. -/
def construct (m : Memory) (numMipLevels arrayLength : Nat) (isCubemap : Bool) :
    Nat × Memory :=
  let r := m.newSharedReference.1
  let m1 := m.newSharedReference.2
  (m.bundles.length,
    { m1 with
      bundles := m1.bundles ++ [some r]
      impls := m1.impls.set m.impls.length
        (KtxBundle.KtxBundle numMipLevels arrayLength isCubemap) })

/-- The assignment `KtxBundle::operator=(const KtxBundle& that)` on the object at address
`this`. With `that.mImplRef` set: `mImplRef = new SharedReference()`, then
`mImplRef->impl = that.mImplRef->impl`, where `that.mImplRef` is read after the first
statement, so that with `this == &that` it is the new reference. Otherwise `this` becomes
null. The record a replaced shared pointer released is left in the memory. -/
def assign (m : Memory) (this that : Nat) : Outcome Memory :=
  match m.bundles[this]?, m.bundles[that]? with
  | some _, some (some _) =>
    let r := m.newSharedReference.1
    let m1 := m.newSharedReference.2
    let m2 : Memory := { m1 with bundles := m1.bundles.set this (some r) }
    match m2.bundles[that]? with
    | some (some source) =>
      match m2.references[source]? with
      | some ref =>
        .returns { m2 with references := m2.references.set r { impl := ref.impl } }
      | none => .undefinedBehaviour
    | _ => .undefinedBehaviour
  | some _, some none => .returns { m with bundles := m.bundles.set this none }
  | _, _ => .undefinedBehaviour

/-- The copy constructor `KtxBundle::KtxBundle(const KtxBundle& that)` on a new object:
`*this = that`. The result is the address of the new object. The declaration of
`mImplRef` is in the header, which is not at hand; the new object starts with a null
`mImplRef`, which the assignment replaces without reading it when `that.mImplRef` is
set. -/
def copy (m : Memory) (that : Nat) : Outcome (Nat × Memory) :=
  match assign { m with bundles := m.bundles ++ [none] } m.bundles.length that with
  | .returns m1 => .returns (m.bundles.length, m1)
  | .undefinedBehaviour => .undefinedBehaviour

/-- The accessor `getInfo` through a handle. -/
def getInfo (m : Memory) (h : Nat) : Outcome KtxInfo :=
  match m.self h with
  | none => .undefinedBehaviour
  | some (_, impl) => .returns impl.info

/-- The accessor `info()` through a handle, followed by a store of `info` through the
reference it returns. -/
def setInfo (m : Memory) (h : Nat) (info : KtxInfo) : Outcome Memory :=
  match m.self h with
  | none => .undefinedBehaviour
  | some (a, impl) => .returns { m with impls := m.impls.set a { impl with info := info } }

/-- The accessor `getNumMipLevels` through a handle. -/
def getNumMipLevels (m : Memory) (h : Nat) : Outcome Nat :=
  match m.self h with
  | none => .undefinedBehaviour
  | some (_, impl) => .returns (KtxBundle.getNumMipLevels impl)

/-- The accessor `getArrayLength` through a handle. -/
def getArrayLength (m : Memory) (h : Nat) : Outcome Nat :=
  match m.self h with
  | none => .undefinedBehaviour
  | some (_, impl) => .returns (KtxBundle.getArrayLength impl)

/-- The method `getBlob` through a handle. -/
def getBlob (m : Memory) (h : Nat) (index : KtxBlobIndex) :
    Outcome (Option (Blob × Nat)) :=
  match m.self h with
  | none => .undefinedBehaviour
  | some (_, impl) => KtxBundle.getBlob impl index

/-- The method `setBlob` through a handle: the `bool` result and the memory after the
call, in which the implementation record the handle refers to is the updated one. -/
def setBlob (m : Memory) (h : Nat) (index : KtxBlobIndex) (bytes : Blob) :
    Outcome (Bool × Memory) :=
  match m.self h with
  | none => .undefinedBehaviour
  | some (a, impl) =>
    match KtxBundle.setBlob impl index bytes with
    | .undefinedBehaviour => .undefinedBehaviour
    | .returns (ok, next) => .returns (ok, { m with impls := m.impls.set a next })

end Handle

/-! ## Arithmetic of `flatten` -/

theorem u32_eq_self {n : Nat} (h : n < 4294967296) : u32 n = n := Nat.mod_eq_of_lt h

theorem u32_le (n : Nat) : u32 n ≤ n := Nat.mod_le _ _

theorem outOfBounds_eq_false_iff (self : KtxImpl) (index : KtxBlobIndex) :
    KtxBundle.outOfBounds self index = false ↔ InBounds self index := by
  simp only [KtxBundle.outOfBounds, InBounds, Bool.or_eq_false_iff, decide_eq_false_iff_not,
    not_le, ge_iff_le, and_assoc]

theorem outOfBounds_eq_true_iff (self : KtxImpl) (index : KtxBlobIndex) :
    KtxBundle.outOfBounds self index = true ↔
      (index.mipLevel ≥ self.nmips ∨ index.arrayIndex ≥ self.nlayers ∨
        index.cubeFace ≥ self.nfaces) := by
  simp only [KtxBundle.outOfBounds, Bool.or_eq_true, decide_eq_true_eq, or_assoc]

/-- The wrapped computation of `flatten` is the unwrapped sum reduced once. -/
theorem flatten_eq_mod (impl : KtxImpl) (index : KtxBlobIndex) :
    flatten impl index =
      (index.cubeFace + index.arrayIndex * impl.nfaces +
        index.mipLevel * impl.nlayers * impl.nfaces) % 4294967296 := by
  simp [flatten, u32, Nat.add_mod, Nat.mul_mod]

/-- For an in-bounds index the unwrapped sum is below the number of index triples. -/
theorem sum_lt_slotCount {impl : KtxImpl} {index : KtxBlobIndex} (h : InBounds impl index) :
    index.cubeFace + index.arrayIndex * impl.nfaces +
      index.mipLevel * impl.nlayers * impl.nfaces < slotCount impl := by
  obtain ⟨hm, hl, hf⟩ := h
  unfold slotCount
  have h1 : index.cubeFace + index.arrayIndex * impl.nfaces < impl.nlayers * impl.nfaces := by
    calc index.cubeFace + index.arrayIndex * impl.nfaces
        < impl.nfaces + index.arrayIndex * impl.nfaces := by omega
      _ = (index.arrayIndex + 1) * impl.nfaces := by ring
      _ ≤ impl.nlayers * impl.nfaces := Nat.mul_le_mul_right _ hl
  calc index.cubeFace + index.arrayIndex * impl.nfaces +
        index.mipLevel * impl.nlayers * impl.nfaces
      < impl.nlayers * impl.nfaces + index.mipLevel * impl.nlayers * impl.nfaces := by omega
    _ = (index.mipLevel + 1) * (impl.nlayers * impl.nfaces) := by ring
    _ ≤ impl.nmips * (impl.nlayers * impl.nfaces) := Nat.mul_le_mul_right _ hm
    _ = impl.nmips * impl.nlayers * impl.nfaces := by ring

/-- Without wrap-around `flatten` is the sum of the spec. -/
theorem flatten_eq_sum {impl : KtxImpl} {index : KtxBlobIndex} (h : InBounds impl index)
    (hfit : slotCount impl ≤ 4294967296) :
    flatten impl index =
      index.cubeFace + index.arrayIndex * impl.nfaces +
        index.mipLevel * impl.nlayers * impl.nfaces := by
  rw [flatten_eq_mod]
  exact Nat.mod_eq_of_lt (lt_of_lt_of_le (sum_lt_slotCount h) hfit)

theorem flatten_lt_slotCount {impl : KtxImpl} {index : KtxBlobIndex} (h : InBounds impl index) :
    flatten impl index < slotCount impl := by
  rw [flatten_eq_mod]
  exact lt_of_le_of_lt (Nat.mod_le _ _) (sum_lt_slotCount h)

/-- The unwrapped sum determines the in-bounds triple. -/
theorem sum_injective {impl : KtxImpl} {i j : KtxBlobIndex} (hi : InBounds impl i)
    (hj : InBounds impl j)
    (h : i.cubeFace + i.arrayIndex * impl.nfaces + i.mipLevel * impl.nlayers * impl.nfaces =
      j.cubeFace + j.arrayIndex * impl.nfaces + j.mipLevel * impl.nlayers * impl.nfaces) :
    i = j := by
  obtain ⟨him, hil, hif⟩ := hi
  obtain ⟨hjm, hjl, hjf⟩ := hj
  have hfpos : 0 < impl.nfaces := by omega
  have e1 : ∀ k : KtxBlobIndex, k.cubeFace + k.arrayIndex * impl.nfaces +
      k.mipLevel * impl.nlayers * impl.nfaces =
      k.cubeFace + impl.nfaces * (k.arrayIndex + impl.nlayers * k.mipLevel) := by
    intro k; ring
  rw [e1 i, e1 j] at h
  have hface : i.cubeFace = j.cubeFace := by
    have := congrArg (· % impl.nfaces) h
    simpa [Nat.add_mul_mod_self_left, Nat.mod_eq_of_lt hif, Nat.mod_eq_of_lt hjf] using this
  have hrest : i.arrayIndex + impl.nlayers * i.mipLevel =
      j.arrayIndex + impl.nlayers * j.mipLevel := by
    rw [hface] at h
    exact Nat.eq_of_mul_eq_mul_left hfpos (Nat.add_left_cancel h)
  have hlayer : i.arrayIndex = j.arrayIndex := by
    have := congrArg (· % impl.nlayers) hrest
    simpa [Nat.add_mul_mod_self_left, Nat.mod_eq_of_lt hil, Nat.mod_eq_of_lt hjl] using this
  have hmip : i.mipLevel = j.mipLevel := by
    rw [hlayer] at hrest
    exact Nat.eq_of_mul_eq_mul_left (by omega) (Nat.add_left_cancel hrest)
  cases i; cases j; simp_all

/-- Without wrap-around `flatten` separates the in-bounds triples. -/
theorem flatten_injective {impl : KtxImpl} {i j : KtxBlobIndex} (hi : InBounds impl i)
    (hj : InBounds impl j) (hfit : slotCount impl ≤ 4294967296)
    (h : flatten impl i = flatten impl j) : i = j := by
  rw [flatten_eq_sum hi hfit, flatten_eq_sum hj hfit] at h
  exact sum_injective hi hj h

/-! ## `flatten` and the nested enumeration -/

theorem length_flatMap_range {α : Type} (g : Nat → List α) (L : Nat)
    (hL : ∀ k, (g k).length = L) (n : Nat) : ((List.range n).flatMap g).length = n * L := by
  induction n with
  | zero => simp
  | succ n ih =>
    rw [List.range_succ, List.flatMap_append, List.length_append, ih]
    simp [hL, Nat.succ_mul]

/-- In a concatenation of `n` blocks of equal length `L`, the element at `k * L + r` is
the element at `r` of block `k`. -/
theorem getElem?_flatMap_range {α : Type} (g : Nat → List α) (L : Nat)
    (hL : ∀ k, (g k).length = L) (n k r : Nat) (hk : k < n) (hr : r < L) :
    ((List.range n).flatMap g)[k * L + r]? = (g k)[r]? := by
  induction n with
  | zero => omega
  | succ n ih =>
    rw [List.range_succ, List.flatMap_append]
    have hlen := length_flatMap_range g L hL n
    by_cases hkn : k < n
    · have hlt : k * L + r < ((List.range n).flatMap g).length := by
        rw [hlen]
        calc k * L + r < k * L + L := by omega
          _ = (k + 1) * L := by ring
          _ ≤ n * L := Nat.mul_le_mul_right _ hkn
      rw [List.getElem?_append_left hlt]
      exact ih hkn
    · have hkeq : k = n := by omega
      subst hkeq
      have hge : ((List.range k).flatMap g).length ≤ k * L + r := by rw [hlen]; omega
      rw [List.getElem?_append_right hge, hlen]
      have hsub : k * L + r - k * L = r := by omega
      have hrk : r < (g k).length := by rw [hL]; exact hr
      simp [hsub, List.getElem?_append_left hrk]

/-- The sum of the spec is the zero-based position of an in-bounds triple in the nested
enumeration. -/
theorem enumeration_getElem?_sum {nmips nlayers nfaces : Nat} {index : KtxBlobIndex}
    (hm : index.mipLevel < nmips) (hl : index.arrayIndex < nlayers)
    (hf : index.cubeFace < nfaces) :
    (enumeration nmips nlayers nfaces)[index.cubeFace + index.arrayIndex * nfaces +
      index.mipLevel * nlayers * nfaces]? = some index := by
  have hinner : ∀ mip layer : Nat,
      ((List.range nfaces).map fun face => (⟨mip, layer, face⟩ : KtxBlobIndex)).length =
        nfaces := by
    intro mip layer; simp
  have hmid : ∀ mip : Nat,
      ((List.range nlayers).flatMap fun layer =>
        (List.range nfaces).map fun face => (⟨mip, layer, face⟩ : KtxBlobIndex)).length =
        nlayers * nfaces := fun mip =>
    length_flatMap_range _ nfaces (hinner mip) nlayers
  have hpos : index.cubeFace + index.arrayIndex * nfaces + index.mipLevel * nlayers * nfaces =
      index.mipLevel * (nlayers * nfaces) + (index.arrayIndex * nfaces + index.cubeFace) := by
    ring
  have hr : index.arrayIndex * nfaces + index.cubeFace < nlayers * nfaces := by
    calc index.arrayIndex * nfaces + index.cubeFace
        < index.arrayIndex * nfaces + nfaces := by omega
      _ = (index.arrayIndex + 1) * nfaces := by ring
      _ ≤ nlayers * nfaces := Nat.mul_le_mul_right _ hl
  unfold enumeration
  rw [hpos, getElem?_flatMap_range _ (nlayers * nfaces) hmid nmips _ _ hm hr,
    getElem?_flatMap_range _ nfaces (hinner index.mipLevel) nlayers _ _ hl hf,
    List.getElem?_map, List.getElem?_range hf]
  rfl

/-- Without wrap-around `flatten` is the position of an in-bounds triple in the nested
enumeration. -/
theorem enumeration_getElem?_flatten {impl : KtxImpl} {index : KtxBlobIndex}
    (h : InBounds impl index) (hfit : slotCount impl ≤ 4294967296) :
    (enumeration impl.nmips impl.nlayers impl.nfaces)[flatten impl index]? = some index := by
  rw [flatten_eq_sum h hfit]
  exact enumeration_getElem?_sum h.1 h.2.1 h.2.2

/-! ## The slot operations on a bundle whose slots fit -/

theorem length_resize {α : Type} (v : List α) (n : Nat) (fill : α) :
    (resize v n fill).length = n := by
  simp only [resize, List.length_append, List.length_take, List.length_replicate]
  omega

/-- After `resize(size)` and `memcpy(.., data, size)` the blob is exactly the bytes given. -/
theorem memcpy_resize (blob bytes : Blob) :
    memcpy (resize blob bytes.length 0) bytes bytes.length = bytes := by
  have h : (resize blob bytes.length 0).drop bytes.length = [] :=
    List.drop_eq_nil_of_le (le_of_eq (length_resize _ _ _))
  simp [memcpy, h]

theorem flatten_lt_length {self : KtxImpl} {index : KtxBlobIndex} (hfit : SlotsFit self)
    (h : InBounds self index) : flatten self index < self.blobs.length := by
  rw [hfit.1]
  exact flatten_lt_slotCount h

theorem setBlob_of_lt {self : KtxImpl} {index : KtxBlobIndex} (h : InBounds self index)
    (hlt : flatten self index < self.blobs.length) (bytes : Blob) :
    KtxBundle.setBlob self index bytes =
      .returns (true, { self with blobs := self.blobs.set (flatten self index) bytes }) := by
  have hb := (outOfBounds_eq_false_iff self index).2 h
  simp [KtxBundle.setBlob, hb, List.getElem?_eq_getElem hlt, memcpy_resize]

theorem getBlob_of_lt {self : KtxImpl} {index : KtxBlobIndex} (h : InBounds self index)
    (hlt : flatten self index < self.blobs.length) :
    KtxBundle.getBlob self index =
      if (self.blobs.get ⟨flatten self index, hlt⟩).isEmpty then .returns none
      else .returns (some (self.blobs.get ⟨flatten self index, hlt⟩,
        u32 (self.blobs.get ⟨flatten self index, hlt⟩).length)) := by
  have hb := (outOfBounds_eq_false_iff self index).2 h
  simp [KtxBundle.getBlob, hb, List.getElem?_eq_getElem hlt]

theorem getBlob_of_slot {self : KtxImpl} {index : KtxBlobIndex} {blob : Blob}
    (h : InBounds self index) (hslot : self.blobs[flatten self index]? = some blob) :
    KtxBundle.getBlob self index =
      if blob.isEmpty then .returns none else .returns (some (blob, u32 blob.length)) := by
  have hb := (outOfBounds_eq_false_iff self index).2 h
  simp [KtxBundle.getBlob, hb, hslot]

theorem setBlob_of_outOfBounds {self : KtxImpl} {index : KtxBlobIndex}
    (h : ¬ InBounds self index) (bytes : Blob) :
    KtxBundle.setBlob self index bytes = .returns (false, self) := by
  have hb : KtxBundle.outOfBounds self index = true := by
    rw [← Bool.not_eq_false, outOfBounds_eq_false_iff]; exact h
  simp [KtxBundle.setBlob, hb]

theorem getBlob_of_outOfBounds {self : KtxImpl} {index : KtxBlobIndex}
    (h : ¬ InBounds self index) :
    KtxBundle.getBlob self index = .returns none := by
  have hb : KtxBundle.outOfBounds self index = true := by
    rw [← Bool.not_eq_false, outOfBounds_eq_false_iff]; exact h
  simp [KtxBundle.getBlob, hb]

/-- On a bundle whose slots fit, reading a slot after writing non-empty bytes to it gives
those bytes back. -/
theorem getBlob_setBlob_same {self : KtxImpl} {index : KtxBlobIndex} (hfit : SlotsFit self)
    (h : InBounds self index) (bytes : Blob) (hne : bytes ≠ []) :
    ∃ next, KtxBundle.setBlob self index bytes = .returns (true, next) ∧
      KtxBundle.getBlob next index = .returns (some (bytes, u32 bytes.length)) := by
  have hlt := flatten_lt_length hfit h
  refine ⟨_, setBlob_of_lt h hlt bytes, ?_⟩
  have hb := (outOfBounds_eq_false_iff self index).2 h
  have hb2 : KtxBundle.outOfBounds
      { self with blobs := self.blobs.set (flatten self index) bytes } index = false := hb
  have hf : flatten { self with blobs := self.blobs.set (flatten self index) bytes } index =
      flatten self index := rfl
  simp [KtxBundle.getBlob, hb2, hf, List.getElem?_set_self, hlt, hne]

/-- On a bundle whose slots fit, writing one slot leaves the reading of every other
in-bounds slot as it was. -/
theorem getBlob_setBlob_other {self : KtxImpl} {i j : KtxBlobIndex} (hfit : SlotsFit self)
    (hi : InBounds self i) (hj : InBounds self j) (hij : i ≠ j) (bytes : Blob) :
    ∃ next, KtxBundle.setBlob self i bytes = .returns (true, next) ∧
      KtxBundle.getBlob next j = KtxBundle.getBlob self j := by
  have hlt := flatten_lt_length hfit hi
  refine ⟨_, setBlob_of_lt hi hlt bytes, ?_⟩
  have hne : flatten self i ≠ flatten self j := fun e =>
    hij (flatten_injective hi hj hfit.2 e)
  have hf : flatten { self with blobs := self.blobs.set (flatten self i) bytes } j =
      flatten self j := rfl
  have hb : KtxBundle.outOfBounds
      { self with blobs := self.blobs.set (flatten self i) bytes } j =
      KtxBundle.outOfBounds self j := rfl
  simp [KtxBundle.getBlob, hb, hf, List.getElem?_set_ne hne]

/-! ## Sequences of calls -/

theorem setBlob_sameShape {self next : KtxImpl} {index : KtxBlobIndex} {bytes : Blob}
    {ok : Bool} (h : KtxBundle.setBlob self index bytes = .returns (ok, next)) :
    SameShape next self := by
  unfold KtxBundle.setBlob at h
  split at h
  · cases h; exact ⟨rfl, rfl, rfl, rfl⟩
  · split at h
    · cases h
    · cases h; exact ⟨rfl, rfl, rfl, by simp⟩

theorem step_sameShape {self next : KtxImpl} {c : KtxBundle.Call}
    (h : KtxBundle.step self c = .returns next) : SameShape next self := by
  cases c with
  | getBlob index =>
    simp only [KtxBundle.step] at h
    split at h
    · cases h; exact ⟨rfl, rfl, rfl, rfl⟩
    · cases h
  | setBlob index bytes =>
    simp only [KtxBundle.step] at h
    split at h
    · rename_i r hr
      cases h
      exact @setBlob_sameShape self r.2 index bytes r.1 hr
    · cases h

theorem run_sameShape (calls : List KtxBundle.Call) :
    ∀ {self final : KtxImpl}, KtxBundle.run self calls = .returns final →
      SameShape final self := by
  induction calls with
  | nil =>
    intro self final h
    simp only [KtxBundle.run] at h
    cases h; exact ⟨rfl, rfl, rfl, rfl⟩
  | cons c rest ih =>
    intro self final h
    simp only [KtxBundle.run] at h
    split at h
    · rename_i next hstep
      obtain ⟨a1, a2, a3, a4⟩ := ih h
      obtain ⟨b1, b2, b3, b4⟩ := step_sameShape hstep
      exact ⟨a1.trans b1, a2.trans b2, a3.trans b3, a4.trans b4⟩
    · cases h

theorem slotsFit_of_sameShape {a b : KtxImpl} (h : SameShape a b) (hb : SlotsFit b) :
    SlotsFit a := by
  obtain ⟨h1, h2, h3, h4⟩ := h
  unfold SlotsFit slotCount at *
  rw [h1, h2, h3, h4]; exact hb

theorem getBlob_returns {self : KtxImpl} (hfit : SlotsFit self) (index : KtxBlobIndex) :
    ∃ r, KtxBundle.getBlob self index = .returns r := by
  by_cases h : InBounds self index
  · rw [getBlob_of_lt h (flatten_lt_length hfit h)]
    split
    · exact ⟨_, rfl⟩
    · exact ⟨_, rfl⟩
  · exact ⟨none, getBlob_of_outOfBounds h⟩

theorem setBlob_returns {self : KtxImpl} (hfit : SlotsFit self) (index : KtxBlobIndex)
    (bytes : Blob) : ∃ r, KtxBundle.setBlob self index bytes = .returns r := by
  by_cases h : InBounds self index
  · exact ⟨_, setBlob_of_lt h (flatten_lt_length hfit h) bytes⟩
  · exact ⟨_, setBlob_of_outOfBounds h bytes⟩

/-- On a bundle whose slots fit, no single call runs into undefined behaviour. -/
theorem step_returns {self : KtxImpl} (hfit : SlotsFit self) (c : KtxBundle.Call) :
    ∃ next, KtxBundle.step self c = .returns next := by
  cases c with
  | getBlob index =>
    obtain ⟨r, hr⟩ := getBlob_returns hfit index
    exact ⟨self, by simp only [KtxBundle.step, hr]⟩
  | setBlob index bytes =>
    obtain ⟨r, hr⟩ := setBlob_returns hfit index bytes
    exact ⟨r.2, by simp only [KtxBundle.step, hr]⟩

/-- On a bundle whose slots fit, no sequence of calls runs into undefined behaviour. -/
theorem run_returns (calls : List KtxBundle.Call) :
    ∀ {self : KtxImpl}, SlotsFit self → ∃ final, KtxBundle.run self calls = .returns final := by
  induction calls with
  | nil => intro self _; exact ⟨self, rfl⟩
  | cons c rest ih =>
    intro self hfit
    obtain ⟨next, hnext⟩ := step_returns hfit c
    obtain ⟨final, hfinal⟩ := ih (slotsFit_of_sameShape (step_sameShape hnext) hfit)
    exact ⟨final, by simp only [KtxBundle.run, hnext, hfinal]⟩

theorem flatten_congr {a b : KtxImpl} (h : SameShape a b) (index : KtxBlobIndex) :
    flatten a index = flatten b index := by
  unfold flatten; rw [h.2.1, h.2.2.1]

theorem inBounds_of_sameShape {a b : KtxImpl} (h : SameShape a b) {index : KtxBlobIndex}
    (hb : InBounds b index) : InBounds a index := by
  unfold InBounds at *; rw [h.1, h.2.1, h.2.2.1]; exact hb

/-- On a bundle whose slots fit, after a sequence of calls the slot of an in-bounds index
holds the bytes of the last `setBlob` that addressed the index, and what it held at the
start when there was none. -/
theorem run_slot (calls : List KtxBundle.Call) :
    ∀ {self : KtxImpl}, SlotsFit self → ∀ index : KtxBlobIndex, InBounds self index →
      ∃ final, KtxBundle.run self calls = .returns final ∧
        final.blobs[flatten self index]? =
          (match lastWrite index calls with
            | some bytes => some bytes
            | none => self.blobs[flatten self index]?) := by
  induction calls with
  | nil => intro self _ index _; exact ⟨self, rfl, rfl⟩
  | cons c rest ih =>
    intro self hfit index hin
    have key : ∃ next, KtxBundle.step self c = .returns next ∧
        next.blobs[flatten self index]? =
          (match c with
            | .setBlob i bytes => if i = index then some bytes else self.blobs[flatten self index]?
            | .getBlob _ => self.blobs[flatten self index]?) := by
      cases c with
      | getBlob i =>
        obtain ⟨r, hr⟩ := getBlob_returns hfit i
        exact ⟨self, by simp only [KtxBundle.step, hr], rfl⟩
      | setBlob i bytes =>
        by_cases hi : InBounds self i
        · have hlt := flatten_lt_length hfit hi
          refine ⟨{ self with blobs := self.blobs.set (flatten self i) bytes },
            by simp only [KtxBundle.step, setBlob_of_lt hi hlt], ?_⟩
          by_cases hij : i = index
          · subst hij
            simp [List.getElem?_set_self, hlt]
          · have hne : flatten self i ≠ flatten self index := fun e =>
              hij (flatten_injective hi hin hfit.2 e)
            simp [hij, List.getElem?_set_ne hne]
        · refine ⟨self, by simp only [KtxBundle.step, setBlob_of_outOfBounds hi], ?_⟩
          have hij : i ≠ index := fun e => hi (e ▸ hin)
          simp [hij]
    obtain ⟨next, hstep, hslot⟩ := key
    have hshape := step_sameShape hstep
    obtain ⟨final, hrun, hfinal⟩ :=
      ih (slotsFit_of_sameShape hshape hfit) index (inBounds_of_sameShape hshape hin)
    refine ⟨final, by simp only [KtxBundle.run, hstep, hrun], ?_⟩
    rw [flatten_congr hshape] at hfinal
    rw [hfinal, hslot]
    simp only [lastWrite]
    cases hlw : lastWrite index rest with
    | some b => rfl
    | none =>
      cases c with
      | getBlob i => rfl
      | setBlob i bytes =>
        by_cases hij : i = index
        · simp [hij]
        · simp [hij]

/-! ## The bundle built by the dimension constructor -/

theorem KtxBundle_blobs (numMipLevels arrayLength : Nat) (isCubemap : Bool) :
    (KtxBundle.KtxBundle numMipLevels arrayLength isCubemap).blobs =
      List.replicate
        ((numMipLevels * arrayLength * (if isCubemap then 6 else 1)) % 4294967296) [] := by
  have hwrap : ∀ x y : Nat, u32 (u32 x * y) = (x * y) % 4294967296 := by
    intro x y; simp [u32, Nat.mul_mod]
  simp only [KtxBundle.KtxBundle, resize, hwrap, List.take_nil, List.length_nil,
    Nat.sub_zero, List.nil_append]

theorem KtxBundle_slotCount (numMipLevels arrayLength : Nat) (isCubemap : Bool) :
    slotCount (KtxBundle.KtxBundle numMipLevels arrayLength isCubemap) =
      numMipLevels * arrayLength * (if isCubemap then 6 else 1) := rfl

/-- When the product of the three counts is below `2 ^ 32` the constructor allocates one
slot per index triple. -/
theorem KtxBundle_slotsFit {numMipLevels arrayLength : Nat} {isCubemap : Bool}
    (h : numMipLevels * arrayLength * (if isCubemap then 6 else 1) < 4294967296) :
    SlotsFit (KtxBundle.KtxBundle numMipLevels arrayLength isCubemap) := by
  refine ⟨?_, ?_⟩
  · rw [KtxBundle_blobs, KtxBundle_slotCount, List.length_replicate, Nat.mod_eq_of_lt h]
  · rw [KtxBundle_slotCount]; exact le_of_lt h

/-- When the product of the three counts is below `2 ^ 32`, every slot of the fresh bundle
is empty: `getBlob` returns `false` for every index. -/
theorem KtxBundle_getBlob {numMipLevels arrayLength : Nat} {isCubemap : Bool}
    (h : numMipLevels * arrayLength * (if isCubemap then 6 else 1) < 4294967296)
    (index : KtxBlobIndex) :
    KtxBundle.getBlob (KtxBundle.KtxBundle numMipLevels arrayLength isCubemap) index =
      .returns none := by
  by_cases hin : InBounds (KtxBundle.KtxBundle numMipLevels arrayLength isCubemap) index
  · have hlt := flatten_lt_length (KtxBundle_slotsFit h) hin
    rw [getBlob_of_lt hin hlt]
    have : (KtxBundle.KtxBundle numMipLevels arrayLength isCubemap).blobs.get
        ⟨flatten (KtxBundle.KtxBundle numMipLevels arrayLength isCubemap) index, hlt⟩ = [] := by
      simp only [List.get_eq_getElem, KtxBundle_blobs, List.getElem_replicate]
    rw [this]; rfl
  · exact getBlob_of_outOfBounds hin

/-! ## The claims -/

/-- C1 (bounds enforcement): when a component of the index reaches its bound, `getBlob`
returns `false` and `setBlob` returns `false` with the bundle as it was, for every byte
sequence; the same happens whatever the slot vector holds (even an empty one), so no slot
is read or written. -/
theorem C1_bounds_enforcement (self : KtxImpl) (index : KtxBlobIndex) (bytes : Blob)
    (h : index.mipLevel ≥ self.nmips ∨ index.arrayIndex ≥ self.nlayers ∨
      index.cubeFace ≥ self.nfaces) :
    KtxBundle.getBlob self index = .returns none ∧
    KtxBundle.setBlob self index bytes = .returns (false, self) ∧
    ∀ slots : List Blob,
      KtxBundle.getBlob { self with blobs := slots } index = .returns none ∧
      KtxBundle.setBlob { self with blobs := slots } index bytes =
        .returns (false, { self with blobs := slots }) := by
  have hb : ∀ slots : List Blob,
      KtxBundle.outOfBounds { self with blobs := slots } index = true := fun _ =>
    (outOfBounds_eq_true_iff _ index).2 h
  have hself : KtxBundle.outOfBounds self index = true := (outOfBounds_eq_true_iff _ index).2 h
  refine ⟨by simp [KtxBundle.getBlob, hself], by simp [KtxBundle.setBlob, hself], ?_⟩
  intro slots
  exact ⟨by simp [KtxBundle.getBlob, hb slots], by simp [KtxBundle.setBlob, hb slots]⟩

/-- C1 at the bundle of 2 mip levels, 1 layer, 1 face with slot 0 written, and the index
`(2, 0, 0)`. -/
theorem C1_bounds_enforcement_witness :
    KtxBundle.getBlob { nmips := 2, nlayers := 1, nfaces := 1, blobs := [[1, 2, 3], []] }
      ⟨2, 0, 0⟩ = .returns none ∧
    KtxBundle.setBlob { nmips := 2, nlayers := 1, nfaces := 1, blobs := [[1, 2, 3], []] }
      ⟨2, 0, 0⟩ [7] =
      .returns (false, { nmips := 2, nlayers := 1, nfaces := 1, blobs := [[1, 2, 3], []] }) :=
  have h := C1_bounds_enforcement
    { nmips := 2, nlayers := 1, nfaces := 1, blobs := [[1, 2, 3], []] } ⟨2, 0, 0⟩ [7]
    (by decide)
  ⟨h.1, h.2.1⟩

/-- C2 (write then read) at a bundle whose slot count wraps around: the constructor
called with 65536 mip levels and 65536 layers computes `65536 * 65536 * 1` in `uint32_t`,
which is 0, so the slot vector is empty; the index `(0, 0, 0)` passes the bounds test and
`setBlob` indexes slot 0 of the empty vector instead of returning success. -/
theorem C2_write_then_read_wraps :
    InBounds (KtxBundle.KtxBundle 65536 65536 false) ⟨0, 0, 0⟩ ∧
    (KtxBundle.KtxBundle 65536 65536 false).blobs = [] ∧
    KtxBundle.setBlob (KtxBundle.KtxBundle 65536 65536 false) ⟨0, 0, 0⟩ [1] =
      .undefinedBehaviour := by
  decide

/-- Write then read on a bundle whose slot count does not wrap around: after any sequence
of calls on the bundle built by the dimension constructor, `setBlob` at an in-bounds index
with non-empty bytes returns `true`, and `getBlob` at that index then returns exactly
those bytes with their length as size. -/
theorem write_then_read {numMipLevels arrayLength : Nat} {isCubemap : Bool}
    (hfit : numMipLevels * arrayLength * (if isCubemap then 6 else 1) < 4294967296)
    (calls : List KtxBundle.Call) (index : KtxBlobIndex) (bytes : Blob)
    (hin : InBounds (KtxBundle.KtxBundle numMipLevels arrayLength isCubemap) index)
    (hne : bytes ≠ []) (hlen : bytes.length < 4294967296) :
    ∃ before after,
      KtxBundle.run (KtxBundle.KtxBundle numMipLevels arrayLength isCubemap) calls =
        .returns before ∧
      KtxBundle.setBlob before index bytes = .returns (true, after) ∧
      KtxBundle.getBlob after index = .returns (some (bytes, bytes.length)) := by
  obtain ⟨before, hrun⟩ := run_returns calls (KtxBundle_slotsFit hfit)
  have hshape := run_sameShape calls hrun
  obtain ⟨after, hset, hget⟩ := getBlob_setBlob_same
    (slotsFit_of_sameShape hshape (KtxBundle_slotsFit hfit))
    (inBounds_of_sameShape hshape hin) bytes hne
  rw [u32_eq_self hlen] at hget
  exact ⟨before, after, hrun, hset, hget⟩

/-- C3 as stated fails for a write of length 0: on the bundle of 1 mip level, 1 layer,
1 face, `setBlob((0,0,0), [])` returns `true` and `getBlob((0,0,0))` then returns
`false`. -/
theorem C3_empty_write_counterexample :
    KtxBundle.setBlob (KtxBundle.KtxBundle 1 1 false) ⟨0, 0, 0⟩ [] =
      .returns (true, { nmips := 1, nlayers := 1, nfaces := 1, blobs := [[]] }) ∧
    KtxBundle.getBlob { nmips := 1, nlayers := 1, nfaces := 1, blobs := [[]] } ⟨0, 0, 0⟩ =
      .returns none := by
  decide

/-- C3 (amended): on the bundle built by the dimension constructor with a slot count
below `2 ^ 32`, after any sequence of calls, `getBlob(index)` returns `false` if and only
if the index is out of bounds, or no `setBlob` addressed the index, or the last `setBlob`
that addressed it wrote zero bytes; and after a `setBlob` of non-empty bytes at an
in-bounds index `getBlob` does not return `false`. -/
theorem C3_absent_iff_unwritten_or_empty (numMipLevels arrayLength : Nat) (isCubemap : Bool)
    (hfit : numMipLevels * arrayLength * (if isCubemap then 6 else 1) < 4294967296)
    (calls : List KtxBundle.Call) (index : KtxBlobIndex) :
    ∃ final,
      KtxBundle.run (KtxBundle.KtxBundle numMipLevels arrayLength isCubemap) calls =
        .returns final ∧
      (KtxBundle.getBlob final index = .returns none ↔
        (¬ InBounds (KtxBundle.KtxBundle numMipLevels arrayLength isCubemap) index ∨
          lastWrite index calls = none ∨ lastWrite index calls = some [])) ∧
      (∀ bytes : Blob, bytes ≠ [] →
        InBounds (KtxBundle.KtxBundle numMipLevels arrayLength isCubemap) index →
        ∃ after, KtxBundle.setBlob final index bytes = .returns (true, after) ∧
          KtxBundle.getBlob after index = .returns (some (bytes, u32 bytes.length))) := by
  have hfit0 := KtxBundle_slotsFit hfit
  by_cases hin : InBounds (KtxBundle.KtxBundle numMipLevels arrayLength isCubemap) index
  · obtain ⟨final, hrun, hslot⟩ := run_slot calls hfit0 index hin
    have hshape := run_sameShape calls hrun
    have hfitF := slotsFit_of_sameShape hshape hfit0
    have hinF := inBounds_of_sameShape hshape hin
    refine ⟨final, hrun, ?_, fun bytes hne _ => getBlob_setBlob_same hfitF hinF bytes hne⟩
    have hstart : (KtxBundle.KtxBundle numMipLevels arrayLength isCubemap).blobs[
        flatten (KtxBundle.KtxBundle numMipLevels arrayLength isCubemap) index]? = some [] := by
      have hlt0 := flatten_lt_length hfit0 hin
      rw [List.getElem?_eq_getElem hlt0]
      simp only [KtxBundle_blobs, List.getElem_replicate]
    rw [hstart, ← flatten_congr hshape] at hslot
    cases hlw : lastWrite index calls with
    | none =>
      rw [hlw] at hslot
      rw [getBlob_of_slot hinF hslot]
      simp
    | some b =>
      rw [hlw] at hslot
      rw [getBlob_of_slot hinF hslot]
      cases b with
      | nil => simp
      | cons x xs => simp [hin]
  · obtain ⟨final, hrun⟩ := run_returns calls hfit0
    have hshape := run_sameShape calls hrun
    have hinF : ¬ InBounds final index := fun h =>
      hin (inBounds_of_sameShape ⟨hshape.1.symm, hshape.2.1.symm, hshape.2.2.1.symm,
        hshape.2.2.2.symm⟩ h)
    exact ⟨final, hrun, by simp [getBlob_of_outOfBounds hinF, hin], fun _ _ h => absurd h hin⟩

/-- C3 (amended) at the bundle of 2 mip levels, 1 layer, 1 face after a write of three
bytes at `(0,0,0)` and a write of zero bytes at `(1,0,0)`, read at `(1,0,0)`. -/
theorem C3_absent_iff_unwritten_or_empty_witness :
    (2 * 1 * (if false then 6 else 1) < 4294967296) ∧
    ∃ final,
      KtxBundle.run (KtxBundle.KtxBundle 2 1 false)
        [.setBlob ⟨0, 0, 0⟩ [1, 2, 3], .setBlob ⟨1, 0, 0⟩ []] = .returns final ∧
      (KtxBundle.getBlob final ⟨1, 0, 0⟩ = .returns none ↔
        (¬ InBounds (KtxBundle.KtxBundle 2 1 false) ⟨1, 0, 0⟩ ∨
          lastWrite ⟨1, 0, 0⟩ [.setBlob ⟨0, 0, 0⟩ [1, 2, 3], .setBlob ⟨1, 0, 0⟩ []] = none ∨
          lastWrite ⟨1, 0, 0⟩ [.setBlob ⟨0, 0, 0⟩ [1, 2, 3], .setBlob ⟨1, 0, 0⟩ []] =
            some [])) ∧
      (∀ bytes : Blob, bytes ≠ [] →
        InBounds (KtxBundle.KtxBundle 2 1 false) ⟨1, 0, 0⟩ →
        ∃ after, KtxBundle.setBlob final ⟨1, 0, 0⟩ bytes = .returns (true, after) ∧
          KtxBundle.getBlob after ⟨1, 0, 0⟩ = .returns (some (bytes, u32 bytes.length))) :=
  ⟨by decide,
    C3_absent_iff_unwritten_or_empty 2 1 false (by decide)
      [.setBlob ⟨0, 0, 0⟩ [1, 2, 3], .setBlob ⟨1, 0, 0⟩ []] ⟨1, 0, 0⟩⟩

/-- C4 (canonical order) at a bundle whose slot count wraps around: with 2147483649 mip
levels, 2 layers and 1 face the in-bounds index `(2147483648, 0, 0)` has the sum
`0 + 0 * 1 + 2147483648 * 2 * 1 = 4294967296` (its position in the nested enumeration),
and `flatten` returns 0. -/
theorem C4_flatten_wraps :
    InBounds (KtxBundle.KtxBundle 2147483649 2 false) ⟨2147483648, 0, 0⟩ ∧
    flatten (KtxBundle.KtxBundle 2147483649 2 false) ⟨2147483648, 0, 0⟩ = 0 ∧
    0 + 0 * (KtxBundle.KtxBundle 2147483649 2 false).nfaces +
      2147483648 * (KtxBundle.KtxBundle 2147483649 2 false).nlayers *
        (KtxBundle.KtxBundle 2147483649 2 false).nfaces = 4294967296 := by
  decide

/-- C5 (injective and in range) at a bundle whose slot count wraps around: the dimensions
2147483649, 2 and 1 are valid, the indices `(0, 0, 0)` and `(2147483648, 0, 0)` are both
within bounds and different, and `flatten` maps both to 0. -/
theorem C5_flatten_collides :
    (KtxBundle.KtxBundle 2147483649 2 false).nmips ≥ 1 ∧
    (KtxBundle.KtxBundle 2147483649 2 false).nlayers ≥ 1 ∧
    (KtxBundle.KtxBundle 2147483649 2 false).nfaces = 1 ∧
    InBounds (KtxBundle.KtxBundle 2147483649 2 false) ⟨0, 0, 0⟩ ∧
    InBounds (KtxBundle.KtxBundle 2147483649 2 false) ⟨2147483648, 0, 0⟩ ∧
    (⟨0, 0, 0⟩ : KtxBlobIndex) ≠ ⟨2147483648, 0, 0⟩ ∧
    flatten (KtxBundle.KtxBundle 2147483649 2 false) ⟨0, 0, 0⟩ =
      flatten (KtxBundle.KtxBundle 2147483649 2 false) ⟨2147483648, 0, 0⟩ := by
  decide

/-- C6 (slot isolation) at a bundle whose slot count wraps around: with 2147483649 mip
levels, 2 layers and 1 face the constructor allocates 2 slots; before the call
`getBlob((0,0,0))` returns `false`; `setBlob((2147483648,0,0), [1])` returns `true`, and
afterwards `getBlob((0,0,0))` returns `true` with the byte written through the other
index. -/
theorem C6_slots_alias :
    InBounds (KtxBundle.KtxBundle 2147483649 2 false) ⟨0, 0, 0⟩ ∧
    InBounds (KtxBundle.KtxBundle 2147483649 2 false) ⟨2147483648, 0, 0⟩ ∧
    KtxBundle.getBlob (KtxBundle.KtxBundle 2147483649 2 false) ⟨0, 0, 0⟩ = .returns none ∧
    KtxBundle.setBlob (KtxBundle.KtxBundle 2147483649 2 false) ⟨2147483648, 0, 0⟩ [1] =
      .returns (true, { nmips := 2147483649, nlayers := 2, nfaces := 1, blobs := [[1], []] }) ∧
    KtxBundle.getBlob { nmips := 2147483649, nlayers := 2, nfaces := 1, blobs := [[1], []] }
      ⟨0, 0, 0⟩ = .returns (some ([1], 1)) := by
  decide

/-- C7 (postcondition of the dimension constructor) at counts whose product wraps around:
with 65536 mip levels and 65536 layers the product of the counts is 4294967296, the
constructor allocates no slot, and `getBlob((0,0,0))` indexes slot 0 of the empty slot
vector instead of returning `false`. -/
theorem C7_slot_count_wraps :
    65536 * 65536 * (KtxBundle.KtxBundle 65536 65536 false).nfaces = 4294967296 ∧
    (KtxBundle.KtxBundle 65536 65536 false).blobs.length = 0 ∧
    KtxBundle.getBlob (KtxBundle.KtxBundle 65536 65536 false) ⟨0, 0, 0⟩ =
      .undefinedBehaviour := by
  decide

/-- The postcondition of the dimension constructor when the product of the counts is
below `2 ^ 32`: the accessors report the arguments, the face count is 6 or 1, there is
one slot per index triple, and `getBlob` returns `false` for every index. -/
theorem constructor_postcondition (numMipLevels arrayLength : Nat) (isCubemap : Bool)
    (hfit : numMipLevels * arrayLength * (if isCubemap then 6 else 1) < 4294967296) :
    KtxBundle.getNumMipLevels (KtxBundle.KtxBundle numMipLevels arrayLength isCubemap) =
      numMipLevels ∧
    KtxBundle.getArrayLength (KtxBundle.KtxBundle numMipLevels arrayLength isCubemap) =
      arrayLength ∧
    (KtxBundle.KtxBundle numMipLevels arrayLength isCubemap).nfaces =
      (if isCubemap then 6 else 1) ∧
    (KtxBundle.KtxBundle numMipLevels arrayLength isCubemap).blobs.length =
      numMipLevels * arrayLength * (if isCubemap then 6 else 1) ∧
    (∀ blob ∈ (KtxBundle.KtxBundle numMipLevels arrayLength isCubemap).blobs, blob = []) ∧
    ∀ index, KtxBundle.getBlob (KtxBundle.KtxBundle numMipLevels arrayLength isCubemap)
      index = .returns none := by
  refine ⟨rfl, rfl, rfl, ?_, ?_, fun index => KtxBundle_getBlob hfit index⟩
  · rw [KtxBundle_blobs, List.length_replicate, Nat.mod_eq_of_lt hfit]
  · intro blob hblob
    rw [KtxBundle_blobs] at hblob
    exact List.eq_of_mem_replicate hblob

/-- C8 (cube-map accessor) at the bundle built with `isCubemap = false`: its face count
is 1, not 6, and `isCubemap()` returns `true`. -/
theorem C8_isCubemap_of_single_face :
    (KtxBundle.KtxBundle 1 1 false).nfaces = 1 ∧
    KtxBundle.isCubemap (KtxBundle.KtxBundle 1 1 false) = true := by
  decide

/-- The accessor `isCubemap` returns `true` exactly when the face count is not 0; on every
bundle of the dimension constructor it returns `true`, whatever the flag. -/
theorem isCubemap_iff (self : KtxImpl) :
    (KtxBundle.isCubemap self = true ↔ self.nfaces ≠ 0) ∧
    ∀ (numMipLevels arrayLength : Nat) (flag : Bool),
      KtxBundle.isCubemap (KtxBundle.KtxBundle numMipLevels arrayLength flag) = true := by
  refine ⟨by simp [KtxBundle.isCubemap], ?_⟩
  intro m a flag
  cases flag <;> rfl

/-- C9 (dimensions are fixed) at a bundle whose slot count wraps around: the constructor
called with 65536 mip levels and 65536 layers allocates no slot, the index `(0, 0, 0)`
passes the bounds test, and the sequence made of the one call `setBlob((0,0,0), [1])`
is undefined behaviour (the write goes through `blobs[0]` of the empty slot vector): it
ends in no bundle whose counts and slots are those of the construction. -/
theorem C9_sequence_undefined_on_wrap :
    (KtxBundle.KtxBundle 65536 65536 false).blobs = [] ∧
    KtxBundle.outOfBounds (KtxBundle.KtxBundle 65536 65536 false) ⟨0, 0, 0⟩ = false ∧
    KtxBundle.run (KtxBundle.KtxBundle 65536 65536 false) [.setBlob ⟨0, 0, 0⟩ [1]] =
      .undefinedBehaviour := by
  decide

/-- On every bundle, a sequence of `getBlob` and `setBlob` calls that runs into no
undefined behaviour ends in a record with the mip count, the layer count, the face count
and the number of slots of the record it started from; and on a bundle whose slots fit
every sequence does end in such a record. -/
theorem dimensions_fixed (self : KtxImpl) (calls : List KtxBundle.Call) :
    (∀ final, KtxBundle.run self calls = .returns final →
      final.nmips = self.nmips ∧ final.nlayers = self.nlayers ∧
        final.nfaces = self.nfaces ∧ final.blobs.length = self.blobs.length) ∧
    (SlotsFit self → ∃ final, KtxBundle.run self calls = .returns final ∧
      final.nmips = self.nmips ∧ final.nlayers = self.nlayers ∧
        final.nfaces = self.nfaces ∧ final.blobs.length = self.blobs.length) :=
  ⟨fun _ h => run_sameShape calls h, fun hfit =>
    match run_returns calls hfit with
    | ⟨final, h⟩ => ⟨final, h, run_sameShape calls h⟩⟩

/-- C10 as stated fails: the dimension constructor called with 0 mip levels and 0 layers
builds a bundle with mip count 0 and layer count 0, and the constructor from bytes builds
a bundle with face count 0. -/
theorem C10_zero_dimensions_counterexample :
    ¬ ((KtxBundle.KtxBundle 0 0 false).nmips ≥ 1) ∧
    ¬ ((KtxBundle.KtxBundle 0 0 false).nlayers ≥ 1) ∧
    ¬ ((KtxBundle.KtxBundleFromBytes [] 0).nfaces = 1 ∨
      (KtxBundle.KtxBundleFromBytes [] 0).nfaces = 6) := by
  decide

/-- C10 (amended): for the bundle the dimension constructor builds with a slot count below
`2 ^ 32`, every sequence of calls ends in a bundle, and that bundle has face count 1 or
6, the mip count and the layer count the constructor was given, hence both at least 1
when the arguments are. -/
theorem C10_dimension_invariant (numMipLevels arrayLength : Nat) (isCubemap : Bool)
    (hfit : numMipLevels * arrayLength * (if isCubemap then 6 else 1) < 4294967296)
    (calls : List KtxBundle.Call) :
    ∃ final,
      KtxBundle.run (KtxBundle.KtxBundle numMipLevels arrayLength isCubemap) calls =
        .returns final ∧
      (final.nfaces = 1 ∨ final.nfaces = 6) ∧
      final.nmips = numMipLevels ∧ final.nlayers = arrayLength ∧
      (numMipLevels ≥ 1 → arrayLength ≥ 1 → final.nmips ≥ 1 ∧ final.nlayers ≥ 1) := by
  obtain ⟨final, h⟩ := run_returns calls (KtxBundle_slotsFit hfit)
  obtain ⟨h1, h2, h3, _⟩ := run_sameShape calls h
  have hm : final.nmips = numMipLevels := h1
  have hl : final.nlayers = arrayLength := h2
  have hf : final.nfaces = (if isCubemap then 6 else 1) := h3
  refine ⟨final, h, ?_, hm, hl, fun a b => ⟨hm ▸ a, hl ▸ b⟩⟩
  cases isCubemap
  · left; simpa using hf
  · right; simpa using hf

/-- C10 (amended) at the cube-map bundle of 1 mip level and 1 layer after a write at
`(0,0,5)` and a failing write at `(0,0,6)`. -/
theorem C10_dimension_invariant_witness :
    (1 * 1 * (if true then 6 else 1) < 4294967296) ∧
    ∃ final,
      KtxBundle.run (KtxBundle.KtxBundle 1 1 true)
        [.setBlob ⟨0, 0, 5⟩ [1], .setBlob ⟨0, 0, 6⟩ [2]] = .returns final ∧
      (final.nfaces = 1 ∨ final.nfaces = 6) ∧
      final.nmips = 1 ∧ final.nlayers = 1 ∧
      ((1 : Nat) ≥ 1 → (1 : Nat) ≥ 1 → final.nmips ≥ 1 ∧ final.nlayers ≥ 1) :=
  ⟨by decide,
    C10_dimension_invariant 1 1 true (by decide)
      [.setBlob ⟨0, 0, 5⟩ [1], .setBlob ⟨0, 0, 6⟩ [2]]⟩

/-- C11 (codec round trip) at the example of the spec, the bundle of 2 mip levels, 1 layer,
1 face with `[1, 2, 3]` at `(0,0,0)`: `getSerializedLength` returns 0, `serialize` into a
buffer of that length returns `false` and writes nothing, and the bundle constructed from
those bytes has mip count 0, layer count 0, face count 0 and `getBlob((0,0,0))` returns
`false`. -/
theorem C11_round_trip_placeholder :
    KtxBundle.run (KtxBundle.KtxBundle 2 1 false) [.setBlob ⟨0, 0, 0⟩ [1, 2, 3]] =
      .returns { nmips := 2, nlayers := 1, nfaces := 1, blobs := [[1, 2, 3], []] } ∧
    KtxBundle.getSerializedLength
      { nmips := 2, nlayers := 1, nfaces := 1, blobs := [[1, 2, 3], []] } = 0 ∧
    KtxBundle.serialize
      { nmips := 2, nlayers := 1, nfaces := 1, blobs := [[1, 2, 3], []] } [] 0 = (false, []) ∧
    (KtxBundle.KtxBundleFromBytes [] 0).nmips = 0 ∧
    (KtxBundle.KtxBundleFromBytes [] 0).nlayers = 0 ∧
    (KtxBundle.KtxBundleFromBytes [] 0).nfaces = 0 ∧
    KtxBundle.getBlob (KtxBundle.KtxBundleFromBytes [] 0) ⟨0, 0, 0⟩ = .returns none := by
  decide

/-- C12 (length accuracy) at the bundle of 2 mip levels, 1 layer, 1 face with `[1, 2, 3]`
at `(0,0,0)`: `getSerializedLength` returns 0 and `serialize` leaves the destination as it
was, while the layout the claim lists is at least 32 bytes long, whatever the number of
header fields and of metadata bytes. -/
theorem C12_length_placeholder :
    KtxBundle.getSerializedLength
      { nmips := 2, nlayers := 1, nfaces := 1, blobs := [[1, 2, 3], []] } = 0 ∧
    (∀ (destination : List Byte) (numBytes : Nat),
      KtxBundle.serialize { nmips := 2, nlayers := 1, nfaces := 1, blobs := [[1, 2, 3], []] }
        destination numBytes = (false, destination)) ∧
    ∀ headerFields metadataBytes : Nat,
      32 ≤ specLayoutLength headerFields metadataBytes
        { nmips := 2, nlayers := 1, nfaces := 1, blobs := [[1, 2, 3], []] } := by
  refine ⟨rfl, fun _ _ => rfl, ?_⟩
  intro headerFields metadataBytes
  have h : specLayoutLength headerFields metadataBytes
      { nmips := 2, nlayers := 1, nfaces := 1, blobs := [[1, 2, 3], []] } =
      12 + 4 + headerFields * 4 + 4 + metadataBytes + 12 := by
    simp [specLayoutLength, padding4]
  omega

/-- C13 (encoder totality) at the fresh bundle of 1 mip level, 1 layer, 1 face and a
destination of 64 bytes: `getSerializedLength` returns 0, so the destination is large
enough, and `serialize` returns `false`. -/
theorem C13_serialize_fails :
    KtxBundle.getSerializedLength (KtxBundle.KtxBundle 1 1 false) ≤ 64 ∧
    (List.replicate 64 (0 : Byte)).length = 64 ∧
    (KtxBundle.serialize (KtxBundle.KtxBundle 1 1 false) (List.replicate 64 0) 64).1 =
      false := by
  decide

/-- The placeholder `serialize` returns `false` for every bundle and every destination,
and leaves the destination as it was. -/
theorem serialize_eq (self : KtxImpl) (destination : List Byte) (numBytes : Nat) :
    KtxBundle.serialize self destination numBytes = (false, destination) := rfl

/-- C14 (truncation safety) at a buffer of one byte, a prefix of every serialized buffer
that starts with that byte: the constructor from bytes does not fail, it builds the
bundle with all counts 0 and no slot, for `0xAB` as for every other byte. -/
theorem C14_prefix_builds_bundle :
    KtxBundle.KtxBundleFromBytes [0xAB] 1 =
      { nmips := 0, nlayers := 0, nfaces := 0, blobs := [] } ∧
    ∀ b : Byte, KtxBundle.KtxBundleFromBytes [b] 1 =
      { nmips := 0, nlayers := 0, nfaces := 0, blobs := [] } :=
  ⟨rfl, fun _ => rfl⟩

/-- A `setBlob` that returns `true` leaves the counts and the info as they were, and the
slot of its index holds the bytes: `getBlob` at the index returns them, or `false` when
there are none. -/
theorem getBlob_of_setBlob_true {self next : KtxImpl} {index : KtxBlobIndex} {bytes : Blob}
    (h : KtxBundle.setBlob self index bytes = .returns (true, next)) :
    next.nmips = self.nmips ∧ next.nlayers = self.nlayers ∧ next.nfaces = self.nfaces ∧
    next.info = self.info ∧
    KtxBundle.getBlob next index =
      if bytes.isEmpty then .returns none else .returns (some (bytes, u32 bytes.length)) := by
  unfold KtxBundle.setBlob at h
  split at h
  · cases h
  · rename_i hb
    split at h
    · cases h
    · rename_i blob hslot
      have hlt : flatten self index < self.blobs.length := by
        rcases Nat.lt_or_ge (flatten self index) self.blobs.length with hlt | hge
        · exact hlt
        · rw [List.getElem?_eq_none hge] at hslot; cases hslot
      cases h
      refine ⟨rfl, rfl, rfl, rfl, ?_⟩
      have hin : InBounds self index :=
        (outOfBounds_eq_false_iff self index).1 (by simpa using hb)
      rw [memcpy_resize]
      exact @getBlob_of_slot
        { self with blobs := self.blobs.set (flatten self index) bytes } index bytes hin
        (by
          show (self.blobs.set (flatten self index) bytes)[flatten self index]? = some bytes
          simp [List.getElem?_set_self, hlt])

/-- What it takes for the `KtxBundle` object at `h` to refer to the implementation record
`impl` at address `a`. -/
theorem self_eq_some_iff {m : Memory} {h a : Nat} {impl : KtxImpl} :
    m.self h = some (a, impl) ↔
      ∃ r, m.bundles[h]? = some (some r) ∧ m.references[r]? = some { impl := a } ∧
        m.impls[a]? = some impl := by
  constructor
  · intro hs
    unfold Memory.self at hs
    split at hs
    · rename_i r hr
      split at hs
      · cases hs
      · rename_i ref href
        split at hs
        · cases hs
        · rename_i found himpl
          cases hs
          exact ⟨r, hr, href, himpl⟩
    · cases hs
  · rintro ⟨r, h1, h2, h3⟩
    simp [Memory.self, h1, h2, h3]

theorem lt_length_of_getElem? {α : Type} {l : List α} {i : Nat} {x : α}
    (h : l[i]? = some x) : i < l.length := by
  rcases Nat.lt_or_ge i l.length with hlt | hge
  · exact hlt
  · rw [List.getElem?_eq_none hge] at h; cases h

/-- An assignment between two different `KtxBundle` objects: afterwards both refer to the
implementation record the source referred to. -/
theorem assign_of_ne {m : Memory} {this that a : Nat} {impl : KtxImpl}
    (hthis : this < m.bundles.length) (hthat : m.self that = some (a, impl))
    (hne : this ≠ that) :
    ∃ m1, Handle.assign m this that = .returns m1 ∧
      m1.self that = some (a, impl) ∧ m1.self this = some (a, impl) := by
  obtain ⟨r, hb, hr, hi⟩ := self_eq_some_iff.1 hthat
  have hrlt := lt_length_of_getElem? hr
  have hilt := lt_length_of_getElem? hi
  have hbthis : m.bundles[this]? = some (m.bundles.get ⟨this, hthis⟩) :=
    List.getElem?_eq_getElem hthis
  have hrne : m.references.length ≠ r := by omega
  refine ⟨{ bundles := m.bundles.set this (some m.references.length)
            references := (m.references ++ [({ impl := m.impls.length } : SharedReference)]).set
              m.references.length { impl := a }
            impls := m.impls ++ [KtxImpl.fresh] }, ?_, ?_, ?_⟩
  · simp [Handle.assign, Memory.newSharedReference, hbthis, hb, List.getElem?_set_ne hne,
      List.getElem?_append_left hrlt, hr]
  · apply self_eq_some_iff.2
    refine ⟨r, ?_, ?_, ?_⟩
    · simp [List.getElem?_set_ne hne, hb]
    · simp [List.getElem?_set_ne hrne, List.getElem?_append_left hrlt, hr]
    · simp [List.getElem?_append_left hilt, hi]
  · apply self_eq_some_iff.2
    refine ⟨m.references.length, ?_, ?_, ?_⟩
    · simp [List.getElem?_set_self hthis]
    · simp [List.getElem?_set_self]
    · simp [List.getElem?_append_left hilt, hi]

/-- An assignment of a `KtxBundle` object to itself: `mImplRef` is replaced before
`that.mImplRef->impl` is read, so the object afterwards refers to the fresh
implementation record. -/
theorem assign_self {m : Memory} {that a : Nat} {impl : KtxImpl}
    (hthat : m.self that = some (a, impl)) :
    ∃ m1, Handle.assign m that that = .returns m1 ∧
      m1.self that = some (m.impls.length, KtxImpl.fresh) := by
  obtain ⟨r, hb, hr, hi⟩ := self_eq_some_iff.1 hthat
  have hlt := lt_length_of_getElem? hb
  refine ⟨{ bundles := m.bundles.set that (some m.references.length)
            references := (m.references ++ [({ impl := m.impls.length } : SharedReference)]).set
              m.references.length { impl := m.impls.length }
            impls := m.impls ++ [KtxImpl.fresh] }, ?_, ?_⟩
  · simp [Handle.assign, Memory.newSharedReference, hb, List.getElem?_set_self hlt]
  · apply self_eq_some_iff.2
    refine ⟨m.references.length, ?_, ?_, ?_⟩
    · simp [List.getElem?_set_self hlt]
    · simp [List.getElem?_set_self]
    · simp

/-- A store into the implementation record at address `a` is seen by every `KtxBundle`
object that refers to that address, and by no other. -/
theorem self_set_impl {m : Memory} {h b : Nat} {impl : KtxImpl}
    (hs : m.self h = some (b, impl)) (a : Nat) (next : KtxImpl) :
    Memory.self { m with impls := m.impls.set a next } h =
      some (b, if a = b then next else impl) := by
  obtain ⟨r, hb, hr, hi⟩ := self_eq_some_iff.1 hs
  have hilt := lt_length_of_getElem? hi
  apply self_eq_some_iff.2
  refine ⟨r, hb, hr, ?_⟩
  by_cases hab : a = b
  · subst hab
    simp [List.getElem?_set_self hilt]
  · simp [List.getElem?_set_ne hab, hi, hab]

/-- A `setBlob` through a handle that returns `true` replaces the implementation record
the handle refers to; every handle that referred to that record refers to the new one. -/
theorem self_setBlob {m next : Memory} {writer a : Nat} {impl : KtxImpl}
    {index : KtxBlobIndex} {bytes : Blob} (hw : m.self writer = some (a, impl))
    (h : Handle.setBlob m writer index bytes = .returns (true, next)) :
    ∃ after, KtxBundle.setBlob impl index bytes = .returns (true, after) ∧
      ∀ reader : Nat, m.self reader = some (a, impl) →
        next.self reader = some (a, after) := by
  simp only [Handle.setBlob, hw] at h
  split at h
  · cases h
  · rename_i ok after hset
    cases h
    refine ⟨after, hset, ?_⟩
    intro reader hr
    have := self_set_impl hr a after
    simpa using this

/-- A store through `info()` replaces the info of the implementation record the handle
refers to; every handle that referred to that record sees the new info. -/
theorem self_setInfo {m : Memory} {writer a : Nat} {impl : KtxImpl}
    (hw : m.self writer = some (a, impl)) (info : KtxInfo) :
    ∃ next, Handle.setInfo m writer info = .returns next ∧
      ∀ reader : Nat, m.self reader = some (a, impl) →
        next.self reader = some (a, { impl with info := info }) := by
  refine ⟨{ m with impls := m.impls.set a { impl with info := info } }, ?_, ?_⟩
  · simp only [Handle.setInfo, hw]
  · intro reader hr
    have := self_set_impl hr a { impl with info := info }
    simpa using this

/-- What two handles that refer to one implementation record observe: the same counts and
info, every successful `setBlob` through one of them is read back through either, and so
is every store through `info()`; afterwards they still refer to one record. -/
theorem shared_observations {m : Memory} {A B a : Nat} {impl : KtxImpl}
    (hA : m.self A = some (a, impl)) (hB : m.self B = some (a, impl)) :
    Handle.getNumMipLevels m B = Handle.getNumMipLevels m A ∧
    Handle.getArrayLength m B = Handle.getArrayLength m A ∧
    Handle.getInfo m B = Handle.getInfo m A ∧
    ∀ writer reader : Nat, (writer = A ∨ writer = B) → (reader = A ∨ reader = B) →
      (∀ (index : KtxBlobIndex) (bytes : Blob) (m2 : Memory),
        Handle.setBlob m writer index bytes = .returns (true, m2) →
        (bytes ≠ [] →
          Handle.getBlob m2 reader index = .returns (some (bytes, u32 bytes.length))) ∧
        (bytes = [] → Handle.getBlob m2 reader index = .returns none) ∧
        Handle.getNumMipLevels m2 reader = .returns impl.nmips ∧
        Handle.getArrayLength m2 reader = .returns impl.nlayers ∧
        Handle.getInfo m2 reader = .returns impl.info ∧
        m2.self B = m2.self A) ∧
      (∀ info : KtxInfo, ∃ m2, Handle.setInfo m writer info = .returns m2 ∧
        Handle.getInfo m2 reader = .returns info ∧
        Handle.getNumMipLevels m2 reader = .returns impl.nmips ∧
        Handle.getArrayLength m2 reader = .returns impl.nlayers ∧
        m2.self B = m2.self A) := by
  refine ⟨?_, ?_, ?_, ?_⟩
  · simp only [Handle.getNumMipLevels, hA, hB]
  · simp only [Handle.getArrayLength, hA, hB]
  · simp only [Handle.getInfo, hA, hB]
  intro writer reader hw hr
  have hwself : m.self writer = some (a, impl) := by
    rcases hw with rfl | rfl
    · exact hA
    · exact hB
  have hrself : m.self reader = some (a, impl) := by
    rcases hr with rfl | rfl
    · exact hA
    · exact hB
  refine ⟨?_, ?_⟩
  · intro index bytes m2 hset
    obtain ⟨after, hafter, hall⟩ := self_setBlob hwself hset
    obtain ⟨h1, h2, _, h4, hget⟩ := getBlob_of_setBlob_true hafter
    have hR2 := hall reader hrself
    refine ⟨?_, ?_, ?_, ?_, ?_, ?_⟩
    · intro hne
      simp only [Handle.getBlob, hR2, hget]
      cases bytes with
      | nil => exact absurd rfl hne
      | cons x xs => rfl
    · intro he
      simp only [Handle.getBlob, hR2, hget, he]
      rfl
    · simp only [Handle.getNumMipLevels, hR2, KtxBundle.getNumMipLevels, h1]
    · simp only [Handle.getArrayLength, hR2, KtxBundle.getArrayLength, h2]
    · simp only [Handle.getInfo, hR2, h4]
    · rw [hall A hA, hall B hB]
  · intro info
    obtain ⟨m2, hset, hall⟩ := self_setInfo hwself info
    have hR2 := hall reader hrself
    refine ⟨m2, hset, ?_, ?_, ?_, ?_⟩
    · simp only [Handle.getInfo, hR2]
    · simp only [Handle.getNumMipLevels, hR2, KtxBundle.getNumMipLevels]
    · simp only [Handle.getArrayLength, hR2, KtxBundle.getArrayLength]
    · rw [hall A hA, hall B hB]

theorem assign_returns_lt {m m1 : Memory} {this that : Nat}
    (h : Handle.assign m this that = .returns m1) : this < m.bundles.length := by
  rcases Nat.lt_or_ge this m.bundles.length with hlt | hge
  · exact hlt
  · simp [Handle.assign, List.getElem?_eq_none hge] at h

/-- The copy constructor on a handle that refers to an implementation record: the new
object and the source refer to that record. -/
theorem copy_of_self {m : Memory} {that a : Nat} {impl : KtxImpl}
    (hthat : m.self that = some (a, impl)) :
    ∃ m1, Handle.copy m that = .returns (m.bundles.length, m1) ∧
      m1.self that = some (a, impl) ∧ m1.self m.bundles.length = some (a, impl) := by
  obtain ⟨r, hb, hr, hi⟩ := self_eq_some_iff.1 hthat
  have hlt := lt_length_of_getElem? hb
  have hthat0 : Memory.self { m with bundles := m.bundles ++ [none] } that =
      some (a, impl) :=
    self_eq_some_iff.2 ⟨r, by simp [List.getElem?_append_left hlt, hb], hr, hi⟩
  have hthis0 : m.bundles.length <
      (Memory.bundles { m with bundles := m.bundles ++ [none] }).length := by simp
  obtain ⟨m1, hassign, h1, h2⟩ := assign_of_ne hthis0 hthat0 (by omega)
  exact ⟨m1, by simp only [Handle.copy, hassign], h1, h2⟩

/-- C15 as stated fails for a write of length 0: a handle made by the dimension
constructor with 1 mip level, 1 layer, 1 face (object 0), a handle copy-constructed from
it (object 1); `setBlob((0,0,0), [])` through the first returns `true` and
`getBlob((0,0,0))` through the copy returns `false`, not the bytes written. -/
theorem C15_empty_write_counterexample :
    Handle.construct { bundles := [], references := [], impls := [] } 1 1 false =
      (0, { bundles := [some 0], references := [{ impl := 0 }],
            impls := [KtxBundle.KtxBundle 1 1 false] }) ∧
    Handle.copy
      { bundles := [some 0], references := [{ impl := 0 }],
        impls := [KtxBundle.KtxBundle 1 1 false] } 0 =
      .returns (1,
        { bundles := [some 0, some 1], references := [{ impl := 0 }, { impl := 0 }],
          impls := [KtxBundle.KtxBundle 1 1 false, KtxImpl.fresh] }) ∧
    Handle.setBlob
      { bundles := [some 0, some 1], references := [{ impl := 0 }, { impl := 0 }],
        impls := [KtxBundle.KtxBundle 1 1 false, KtxImpl.fresh] } 0 ⟨0, 0, 0⟩ [] =
      .returns (true,
        { bundles := [some 0, some 1], references := [{ impl := 0 }, { impl := 0 }],
          impls := [{ nmips := 1, nlayers := 1, nfaces := 1, blobs := [[]] },
            KtxImpl.fresh] }) ∧
    Handle.getBlob
      { bundles := [some 0, some 1], references := [{ impl := 0 }, { impl := 0 }],
        impls := [{ nmips := 1, nlayers := 1, nfaces := 1, blobs := [[]] },
          KtxImpl.fresh] } 1 ⟨0, 0, 0⟩ = .returns none := by
  decide

/-- C15 (amended): for a handle `that` that refers to an implementation record, the copy
constructor and the assignment to any existing handle return, and the handle `B` they
give refers to the record `that` refers to afterwards (the record `that` referred to
before, unless `B` is `that` itself). Both handles report the same mip count, layer
count and info; after a `setBlob` that returns `true` through either handle, `getBlob`
at the same index through either handle returns the bytes written when they are
non-empty and `false` when there are none; a store through `info()` of either handle is
what `getInfo` returns through either; and the two handles keep referring to one
record. -/
theorem C15_handles_alias (m : Memory) (that a : Nat) (impl : KtxImpl)
    (hthat : m.self that = some (a, impl)) :
    (∃ B m1, Handle.copy m that = .returns (B, m1)) ∧
    (∀ this, this < m.bundles.length → ∃ m1, Handle.assign m this that = .returns m1) ∧
    ∀ (B : Nat) (m1 : Memory),
      (Handle.copy m that = .returns (B, m1) ∨ Handle.assign m B that = .returns m1) →
      ∃ a1 impl1,
        m1.self that = some (a1, impl1) ∧ m1.self B = some (a1, impl1) ∧
        (B ≠ that → a1 = a ∧ impl1 = impl) ∧
        Handle.getNumMipLevels m1 B = Handle.getNumMipLevels m1 that ∧
        Handle.getArrayLength m1 B = Handle.getArrayLength m1 that ∧
        Handle.getInfo m1 B = Handle.getInfo m1 that ∧
        ∀ writer reader : Nat, (writer = that ∨ writer = B) → (reader = that ∨ reader = B) →
          (∀ (index : KtxBlobIndex) (bytes : Blob) (m2 : Memory),
            Handle.setBlob m1 writer index bytes = .returns (true, m2) →
            (bytes ≠ [] →
              Handle.getBlob m2 reader index = .returns (some (bytes, u32 bytes.length))) ∧
            (bytes = [] → Handle.getBlob m2 reader index = .returns none) ∧
            Handle.getNumMipLevels m2 reader = .returns impl1.nmips ∧
            Handle.getArrayLength m2 reader = .returns impl1.nlayers ∧
            Handle.getInfo m2 reader = .returns impl1.info ∧
            m2.self B = m2.self that) ∧
          (∀ info : KtxInfo, ∃ m2, Handle.setInfo m1 writer info = .returns m2 ∧
            Handle.getInfo m2 reader = .returns info ∧
            Handle.getNumMipLevels m2 reader = .returns impl1.nmips ∧
            Handle.getArrayLength m2 reader = .returns impl1.nlayers ∧
            m2.self B = m2.self that) := by
  obtain ⟨mc, hcopy, hcthat, hcnew⟩ := copy_of_self hthat
  have hthatlt : that < m.bundles.length := by
    obtain ⟨r, hb, _, _⟩ := self_eq_some_iff.1 hthat
    exact lt_length_of_getElem? hb
  refine ⟨⟨_, _, hcopy⟩, ?_, ?_⟩
  · intro this hthis
    by_cases he : this = that
    · subst he
      obtain ⟨m1, h1, _⟩ := assign_self hthat
      exact ⟨m1, h1⟩
    · obtain ⟨m1, h1, _⟩ := assign_of_ne hthis hthat he
      exact ⟨m1, h1⟩
  · intro B m1 hobtained
    rcases hobtained with hc | hasg
    · rw [hcopy] at hc
      cases hc
      exact ⟨a, impl, hcthat, hcnew, fun _ => ⟨rfl, rfl⟩, shared_observations hcthat hcnew⟩
    · by_cases he : B = that
      · subst he
        obtain ⟨ms, hs, hsself⟩ := assign_self hthat
        rw [hs] at hasg
        cases hasg
        exact ⟨_, _, hsself, hsself, fun h => absurd rfl h,
          shared_observations hsself hsself⟩
      · obtain ⟨mn, hn, hnthat, hnthis⟩ := assign_of_ne (assign_returns_lt hasg) hthat he
        rw [hn] at hasg
        cases hasg
        exact ⟨a, impl, hnthat, hnthis, fun _ => ⟨rfl, rfl⟩,
          shared_observations hnthat hnthis⟩

/-- C15 (amended) at the handle made by the dimension constructor with 2 mip levels,
1 layer, 1 face (object 0): the copy (object 1) refers to the same record, and three
bytes written at `(0,0,0)` through the copy are read through the original. -/
theorem C15_handles_alias_witness :
    Memory.self
      { bundles := [some 0], references := [{ impl := 0 }],
        impls := [KtxBundle.KtxBundle 2 1 false] } 0 =
      some (0, KtxBundle.KtxBundle 2 1 false) ∧
    Handle.copy
      { bundles := [some 0], references := [{ impl := 0 }],
        impls := [KtxBundle.KtxBundle 2 1 false] } 0 =
      .returns (1,
        { bundles := [some 0, some 1], references := [{ impl := 0 }, { impl := 0 }],
          impls := [KtxBundle.KtxBundle 2 1 false, KtxImpl.fresh] }) ∧
    Handle.setBlob
      { bundles := [some 0, some 1], references := [{ impl := 0 }, { impl := 0 }],
        impls := [KtxBundle.KtxBundle 2 1 false, KtxImpl.fresh] } 1 ⟨0, 0, 0⟩ [1, 2, 3] =
      .returns (true,
        { bundles := [some 0, some 1], references := [{ impl := 0 }, { impl := 0 }],
          impls := [{ nmips := 2, nlayers := 1, nfaces := 1, blobs := [[1, 2, 3], []] },
            KtxImpl.fresh] }) ∧
    Handle.getBlob
      { bundles := [some 0, some 1], references := [{ impl := 0 }, { impl := 0 }],
        impls := [{ nmips := 2, nlayers := 1, nfaces := 1, blobs := [[1, 2, 3], []] },
          KtxImpl.fresh] } 0 ⟨0, 0, 0⟩ = .returns (some ([1, 2, 3], 3)) := by
  have hA : Memory.self
      { bundles := [some 0], references := [{ impl := 0 }],
        impls := [KtxBundle.KtxBundle 2 1 false] } 0 =
      some (0, KtxBundle.KtxBundle 2 1 false) := by decide
  have hcopy : Handle.copy
      { bundles := [some 0], references := [{ impl := 0 }],
        impls := [KtxBundle.KtxBundle 2 1 false] } 0 =
      .returns (1,
        { bundles := [some 0, some 1], references := [{ impl := 0 }, { impl := 0 }],
          impls := [KtxBundle.KtxBundle 2 1 false, KtxImpl.fresh] }) := by decide
  have hset : Handle.setBlob
      { bundles := [some 0, some 1], references := [{ impl := 0 }, { impl := 0 }],
        impls := [KtxBundle.KtxBundle 2 1 false, KtxImpl.fresh] } 1 ⟨0, 0, 0⟩ [1, 2, 3] =
      .returns (true,
        { bundles := [some 0, some 1], references := [{ impl := 0 }, { impl := 0 }],
          impls := [{ nmips := 2, nlayers := 1, nfaces := 1, blobs := [[1, 2, 3], []] },
            KtxImpl.fresh] }) := by decide
  obtain ⟨_, _, _, _, _, _, _, _, hall⟩ :=
    (C15_handles_alias
      { bundles := [some 0], references := [{ impl := 0 }],
        impls := [KtxBundle.KtxBundle 2 1 false] } 0 0 (KtxBundle.KtxBundle 2 1 false)
      hA).2.2 1 _ (Or.inl hcopy)
  exact ⟨hA, hcopy, hset,
    ((hall 1 0 (Or.inr rfl) (Or.inl rfl)).1 ⟨0, 0, 0⟩ [1, 2, 3] _ hset).1 (by decide)⟩

/-- An assignment of a handle to itself, at the handle made by the dimension constructor
with 2 mip levels, 1 layer, 1 face: afterwards the handle refers to a fresh
implementation record and `getNumMipLevels` returns 0. -/
theorem assign_self_example :
    Handle.getNumMipLevels
      { bundles := [some 0], references := [{ impl := 0 }],
        impls := [KtxBundle.KtxBundle 2 1 false] } 0 = .returns 2 ∧
    Handle.assign
      { bundles := [some 0], references := [{ impl := 0 }],
        impls := [KtxBundle.KtxBundle 2 1 false] } 0 0 =
      .returns
        { bundles := [some 1], references := [{ impl := 0 }, { impl := 1 }],
          impls := [KtxBundle.KtxBundle 2 1 false, KtxImpl.fresh] } ∧
    Handle.getNumMipLevels
      { bundles := [some 1], references := [{ impl := 0 }, { impl := 1 }],
        impls := [KtxBundle.KtxBundle 2 1 false, KtxImpl.fresh] } 0 = .returns 0 := by
  decide

/-- C16 (unflatten) at a bundle whose slot count wraps around: with 2147483649 mip
levels, 2 layers and 1 face the offset 4294967296 is below the product of the counts,
its triple `(2147483648, 0, 0)` is within bounds, and `flatten` maps the triple to 0, not
back to the offset. -/
theorem C16_unflatten_wraps :
    (KtxBundle.KtxBundle 2147483649 2 false).nmips ≥ 1 ∧
    (KtxBundle.KtxBundle 2147483649 2 false).nlayers ≥ 1 ∧
    (KtxBundle.KtxBundle 2147483649 2 false).nfaces ≥ 1 ∧
    4294967296 < slotCount (KtxBundle.KtxBundle 2147483649 2 false) ∧
    unflatten (KtxBundle.KtxBundle 2147483649 2 false) 4294967296 = ⟨2147483648, 0, 0⟩ ∧
    InBounds (KtxBundle.KtxBundle 2147483649 2 false)
      (unflatten (KtxBundle.KtxBundle 2147483649 2 false) 4294967296) ∧
    flatten (KtxBundle.KtxBundle 2147483649 2 false)
      (unflatten (KtxBundle.KtxBundle 2147483649 2 false) 4294967296) = 0 := by
  decide

/-- Without wrap-around the triple an offset below the slot count is unflattened to is
within bounds and `flatten` maps it back to the offset. -/
theorem flatten_unflatten {impl : KtxImpl} (hfit : slotCount impl ≤ 4294967296) {k : Nat}
    (hk : k < slotCount impl) :
    InBounds impl (unflatten impl k) ∧ flatten impl (unflatten impl k) = k := by
  have hk2 : k < impl.nmips * impl.nlayers * impl.nfaces := hk
  have hf : 0 < impl.nfaces := by
    rcases Nat.eq_zero_or_pos impl.nfaces with h | h
    · rw [h, Nat.mul_zero] at hk2; omega
    · exact h
  have hl : 0 < impl.nlayers := by
    rcases Nat.eq_zero_or_pos impl.nlayers with h | h
    · rw [h, Nat.mul_zero, Nat.zero_mul] at hk2; omega
    · exact h
  have hin : InBounds impl (unflatten impl k) := by
    refine ⟨?_, Nat.mod_lt _ hl, Nat.mod_lt _ hf⟩
    show k / (impl.nlayers * impl.nfaces) < impl.nmips
    rw [Nat.div_lt_iff_lt_mul (Nat.mul_pos hl hf)]
    calc k < impl.nmips * impl.nlayers * impl.nfaces := hk2
      _ = impl.nmips * (impl.nlayers * impl.nfaces) := by ring
  refine ⟨hin, ?_⟩
  rw [flatten_eq_sum hin hfit]
  show k % impl.nfaces + (k / impl.nfaces) % impl.nlayers * impl.nfaces +
    k / (impl.nlayers * impl.nfaces) * impl.nlayers * impl.nfaces = k
  have hdiv : k / (impl.nlayers * impl.nfaces) = k / impl.nfaces / impl.nlayers := by
    rw [Nat.div_div_eq_div_mul, Nat.mul_comm]
  have h1 := Nat.mod_add_div k impl.nfaces
  have h2 := Nat.mod_add_div (k / impl.nfaces) impl.nlayers
  rw [hdiv]
  calc k % impl.nfaces + (k / impl.nfaces) % impl.nlayers * impl.nfaces +
        k / impl.nfaces / impl.nlayers * impl.nlayers * impl.nfaces
      = k % impl.nfaces + impl.nfaces * ((k / impl.nfaces) % impl.nlayers +
          impl.nlayers * (k / impl.nfaces / impl.nlayers)) := by ring
    _ = k % impl.nfaces + impl.nfaces * (k / impl.nfaces) := by rw [h2]
    _ = k := h1

/-- Without wrap-around `unflatten` undoes `flatten` on the in-bounds triples. -/
theorem unflatten_flatten {impl : KtxImpl} (hfit : slotCount impl ≤ 4294967296)
    {index : KtxBlobIndex} (h : InBounds impl index) :
    unflatten impl (flatten impl index) = index := by
  obtain ⟨hin, hback⟩ := flatten_unflatten hfit (flatten_lt_slotCount h)
  exact flatten_injective hin h hfit hback

/-- C17 (slot access in range) at counts whose product wraps around: for the bundle built
with 65536 mip levels and 65536 layers the index `(0, 0, 0)` passes the bounds test,
`flatten` gives 0, and the constructor allocated 0 slots, so the slot lookup `blobs[0]`
is outside the slot vector. -/
theorem C17_lookup_outside_slots :
    KtxBundle.outOfBounds (KtxBundle.KtxBundle 65536 65536 false) ⟨0, 0, 0⟩ = false ∧
    flatten (KtxBundle.KtxBundle 65536 65536 false) ⟨0, 0, 0⟩ = 0 ∧
    (KtxBundle.KtxBundle 65536 65536 false).blobs.length = 0 ∧
    ¬ (flatten (KtxBundle.KtxBundle 65536 65536 false) ⟨0, 0, 0⟩ <
      (KtxBundle.KtxBundle 65536 65536 false).blobs.length) ∧
    (KtxBundle.KtxBundle 65536 65536 false).blobs[
      flatten (KtxBundle.KtxBundle 65536 65536 false) ⟨0, 0, 0⟩]? = none := by
  decide

/-- When the product of the counts is below `2 ^ 32`, every index that passes the bounds
test of `getBlob` and `setBlob` is flattened to a position inside the slot vector the
dimension constructor allocated. -/
theorem lookup_inside_slots {numMipLevels arrayLength : Nat} {isCubemap : Bool}
    (hfit : numMipLevels * arrayLength * (if isCubemap then 6 else 1) < 4294967296)
    (index : KtxBlobIndex)
    (h : KtxBundle.outOfBounds (KtxBundle.KtxBundle numMipLevels arrayLength isCubemap)
      index = false) :
    flatten (KtxBundle.KtxBundle numMipLevels arrayLength isCubemap) index <
      (KtxBundle.KtxBundle numMipLevels arrayLength isCubemap).blobs.length :=
  flatten_lt_length (KtxBundle_slotsFit hfit) ((outOfBounds_eq_false_iff _ index).1 h)

/-- C18 (the constructor from bytes ignores its input): whatever the buffer, the bundle
has mip count 0, layer count 0, face count 0 and no slot; `getBlob` returns `false` for
every index and `setBlob` returns `false` for every index and every byte sequence, leaving
the bundle as it is; and any two buffers give the same bundle. -/
theorem C18_from_bytes_ignores_input (bytes : List Byte) (nbytes : Nat) :
    (KtxBundle.KtxBundleFromBytes bytes nbytes).nmips = 0 ∧
    (KtxBundle.KtxBundleFromBytes bytes nbytes).nlayers = 0 ∧
    (KtxBundle.KtxBundleFromBytes bytes nbytes).nfaces = 0 ∧
    (KtxBundle.KtxBundleFromBytes bytes nbytes).blobs = [] ∧
    (∀ index : KtxBlobIndex,
      KtxBundle.getBlob (KtxBundle.KtxBundleFromBytes bytes nbytes) index = .returns none) ∧
    (∀ (index : KtxBlobIndex) (data : Blob),
      KtxBundle.setBlob (KtxBundle.KtxBundleFromBytes bytes nbytes) index data =
        .returns (false, KtxBundle.KtxBundleFromBytes bytes nbytes)) ∧
    ∀ (other : List Byte) (nother : Nat),
      KtxBundle.KtxBundleFromBytes other nother =
        KtxBundle.KtxBundleFromBytes bytes nbytes := by
  have hout : ∀ index : KtxBlobIndex,
      ¬ InBounds (KtxBundle.KtxBundleFromBytes bytes nbytes) index := by
    intro index h
    exact Nat.not_lt_zero _ h.1
  exact ⟨rfl, rfl, rfl, rfl, fun index => getBlob_of_outOfBounds (hout index),
    fun index data => setBlob_of_outOfBounds (hout index) data, fun _ _ => rfl⟩

end image
